import Mathlib

/-!
Shallow embedding of the per-tile dirty-region / double-buffer state machine of
`Source/WebCore/platform/graphics/android/BaseTile.cpp`.

Modelling conventions:
* `SkIRect` is an integer rectangle (left, top, right, bottom); it denotes the
  half-open point set `[l, r) × [t, b)` and is empty when `r ≤ l` or `b ≤ t`,
  matching Skia's convention.
* `SkRegion` is modelled as a list of integer rectangles whose denotation is the
  union of the rectangles.  `op kUnion` appends, `op kDifference` subtracts each
  rectangle geometrically, `setEmpty` yields `[]`, `isEmpty` checks that every
  stored rectangle is degenerate.  The rectangle iterator (`SkRegion::Iterator`)
  walks the stored list.
* Float arithmetic (`SkScalar`, the tile scale) is modelled over `ℚ`; all the
  concrete inputs exercised here are exactly representable.
* Texture slots (`BaseTileTexture*`) are plain number identifiers `ℕ`; the tile holds
  `Option ℕ` front/back references (`none` = null pointer).
* Calls into external collaborators (texture pool, renderer, GL) do not mutate
  tile state; the data they feed back into `paintBitmap` (texture size, buffer
  size, ownership check) are explicit parameters of the transition.
* Execution is sequential: no other thread mutates the tile between the
  snapshot and completion phases of `paintBitmap`, so the mid-paint re-checks
  (`m_scale != scale`, `texture == m_backTexture`) compare equal values.
-/

/-- Integer rectangle, as Skia's `SkIRect` (half-open `[l,r) × [t,b)`). -/
structure SkIRect where
  l : Int
  t : Int
  r : Int
  b : Int
  deriving DecidableEq, Repr

namespace SkIRect

/-- A rectangle is degenerate (contains no point) when `r ≤ l` or `b ≤ t`. -/
def degenerate (a : SkIRect) : Bool := a.r ≤ a.l || a.b ≤ a.t

def width (a : SkIRect) : Int := a.r - a.l

def height (a : SkIRect) : Int := a.b - a.t

end SkIRect

/-- Rational-coordinate rectangle, modelling Skia's float `SkRect`. -/
structure SkRect where
  l : ℚ
  t : ℚ
  r : ℚ
  b : ℚ
  deriving DecidableEq, Repr

namespace SkRect

/-- Skia's `SkRect::roundOut`: floor the left/top edge, ceil the right/bottom edge. -/
def roundOut (a : SkRect) : SkIRect := ⟨⌊a.l⌋, ⌊a.t⌋, ⌈a.r⌉, ⌈a.b⌉⟩

end SkRect

/-- A region is a finite union of integer rectangles (Skia `SkRegion`). -/
def SkRegion := List SkIRect

instance : DecidableEq SkRegion := inferInstanceAs (DecidableEq (List SkIRect))

namespace SkRegion

/-- Skia's `SkRegion::isEmpty`: the region denotes the empty point set. -/
def isEmpty (R : SkRegion) : Bool := R.all SkIRect.degenerate

/-- Skia's `op(other, kUnion_Op)`: the union of the two regions. -/
def opUnion (R other : SkRegion) : SkRegion := List.append R other

/-- Pieces of rectangle `a` not covered by rectangle `c`: the (up to four)
rectangular strips around the intersection, degenerate strips dropped. -/
def subRect (a c : SkIRect) : List SkIRect :=
  let il := max a.l c.l
  let it := max a.t c.t
  let ir := min a.r c.r
  let ib := min a.b c.b
  if il < ir ∧ it < ib then
    (([⟨a.l, a.t, a.r, it⟩, ⟨a.l, ib, a.r, a.b⟩,
       ⟨a.l, it, il, ib⟩, ⟨ir, it, a.r, ib⟩] : List SkIRect).filter
        fun p => !p.degenerate)
  else [a]

/-- Skia's `op(other, kDifference_Op)`: subtract every rectangle of `other` from every
rectangle of `R`. -/
def opDifference (R other : SkRegion) : SkRegion :=
  R.flatMap fun a => other.foldl (fun ps c => ps.flatMap (fun p => subRect p c)) [a]

end SkRegion

/-- Values of `TilesManager::getSharedTextureMode()`. -/
inductive SharedTextureMode where
  | EglImageMode
  | SurfaceTextureMode
  deriving DecidableEq, Repr

open SharedTextureMode

/-- The mutable per-tile state of `BaseTile` (the fields its state machine
reads and writes; the renderer pointer and GL-state pointer are external). -/
structure BaseTile where
  painter : Option Nat
  x : Int
  y : Int
  frontTexture : Option Nat
  backTexture : Option Nat
  scale : ℚ
  dirty : Bool
  repaintPending : Bool
  lastDirtyPicture : Nat
  isTexturePainted : Bool
  isLayerTile : Bool
  isSwapNeeded : Bool
  drawCount : Nat
  currentDirtyAreaIndex : Nat
  maxBufferNumber : Nat
  dirtyArea : List SkRegion
  fullRepaint : List Bool
  sharedTextureMode : SharedTextureMode
  deriving DecidableEq

namespace BaseTile

/-- The constructor `BaseTile::BaseTile(bool isLayerTile)`.  `mode` is the
value of `TilesManager::instance()->getSharedTextureMode()`. -/
def init (layerTile : Bool) (mode : SharedTextureMode) : BaseTile :=
  let maxBuf : Nat := if mode = EglImageMode then 2 else 1
  { painter := none
    x := -1
    y := -1
    frontTexture := none
    backTexture := none
    scale := 1
    dirty := true
    repaintPending := false
    lastDirtyPicture := 0
    isTexturePainted := false
    isLayerTile := layerTile
    isSwapNeeded := false
    drawCount := 0
    currentDirtyAreaIndex := 0
    maxBufferNumber := maxBuf
    dirtyArea := List.replicate maxBuf ([] : SkRegion)
    fullRepaint := List.replicate maxBuf true
    sharedTextureMode := mode }

/-- Map `f` over the entries of `l` with index below `n` (the C++ loops run
`for (int i = 0; i < m_maxBufferNumber; i++)` over arrays of that length). -/
def updBelow {α : Type} (n : Nat) (f : α → α) (l : List α) : List α :=
  l.mapIdx fun i a => if i < n then f a else a

/-- Models `BaseTile::fullInval()`: empty every slot's dirty region, force every
slot's full-repaint flag, set `m_dirty`. -/
def fullInval (s : BaseTile) : BaseTile :=
  { s with
    dirtyArea := updBelow s.maxBufferNumber (fun _ => ([] : SkRegion)) s.dirtyArea
    fullRepaint := updBelow s.maxBufferNumber (fun _ => true) s.fullRepaint
    dirty := true }

/-- Models `BaseTile::setContents(painter, x, y, scale)`.  `newDrawCount` is the value
of `TilesManager::instance()->getDrawGLCount()`. -/
def setContents (s : BaseTile) (painter : Option Nat) (x y : Int) (scale : ℚ)
    (newDrawCount : Nat) : BaseTile :=
  let s₁ :=
    if s.painter ≠ painter ∨ s.x ≠ x ∨ s.y ≠ y ∨ s.scale ≠ scale then
      s.fullInval
    else s
  { s₁ with painter := painter, x := x, y := y, scale := scale,
            drawCount := newDrawCount }

/-- Models `BaseTile::reserveTexture()`.  `texture` is what
`TilesManager::instance()->getAvailableTexture(this)` returned (`none` = null). -/
def reserveTexture (s : BaseTile) (texture : Option Nat) : BaseTile :=
  match texture with
  | none => s
  | some tex =>
    if s.backTexture = some tex then s
    else
      { s with
        isSwapNeeded := false
        backTexture := some tex
        dirty := if s.frontTexture = none then true else s.dirty }

/-- Models `BaseTile::removeTexture(texture)`: clear a stale front/back reference;
always returns true. -/
def removeTexture (s : BaseTile) (texture : Nat) : Bool × BaseTile :=
  let s₁ :=
    if s.frontTexture = some texture then
      { s with frontTexture := none, dirty := true }
    else s
  let s₂ :=
    if s₁.backTexture = some texture then { s₁ with backTexture := none }
    else s₁
  (true, s₂)

/-- Models `BaseTile::markAsDirty(pictureCount, dirtyArea)`. -/
def markAsDirty (s : BaseTile) (pictureCount : Nat) (area : SkRegion) : BaseTile :=
  if area.isEmpty then s
  else
    { s with
      lastDirtyPicture := pictureCount
      dirtyArea := updBelow s.maxBufferNumber (fun R => R.opUnion area) s.dirtyArea
      dirty := true }

/-- Models `BaseTile::swapTexturesIfNeeded()`: returns whether a swap happened. -/
def swapTexturesIfNeeded (s : BaseTile) : Bool × BaseTile :=
  if s.isSwapNeeded then
    (true,
     { s with
       frontTexture := s.backTexture
       backTexture := none
       isSwapNeeded := false })
  else (false, s)

/-- Models `BaseTile::discardTextures()`. -/
def discardTextures (s : BaseTile) : BaseTile :=
  { s with frontTexture := none, backTexture := none, dirty := true }

/-- Models `BaseTile::intersectWithRect(x, y, tileWidth, tileHeight, scale, dirtyRect,
realTileRect)`: scale the dirty rectangle into pixel space and intersect it
with the tile's pixel rectangle; `none` models the `false` return (Skia's
`SkRect::intersect` fails unless the intersection has positive extent). -/
def intersectWithRect (x y : Int) (tileWidth tileHeight : ℚ) (scale : ℚ)
    (dirtyRect : SkRect) : Option SkRect :=
  let realTileL : ℚ := x * tileWidth
  let realTileT : ℚ := y * tileHeight
  let realTileR : ℚ := realTileL + tileWidth
  let realTileB : ℚ := realTileT + tileHeight
  -- SkRect::MakeWH(w·scale, h·scale) followed by offset(l·scale, t·scale)
  let realDirtyL : ℚ := dirtyRect.l * scale
  let realDirtyT : ℚ := dirtyRect.t * scale
  let realDirtyR : ℚ := realDirtyL + (dirtyRect.r - dirtyRect.l) * scale
  let realDirtyB : ℚ := realDirtyT + (dirtyRect.b - dirtyRect.t) * scale
  let il : ℚ := max realTileL realDirtyL
  let it : ℚ := max realTileT realDirtyT
  let ir : ℚ := min realTileR realDirtyR
  let ib : ℚ := min realTileB realDirtyB
  if il < ir ∧ it < ib then some ⟨il, it, ir, ib⟩ else none

/-- Promote an integer rectangle to the float rect `dirtyRect.set(...)` builds
from the region iterator's rectangle. -/
def toSkRect (a : SkIRect) : SkRect := ⟨(a.l : ℚ), (a.t : ℚ), (a.r : ℚ), (a.b : ℚ)⟩

/-- Whether one dirty rectangle makes `paintBitmap`'s loop escalate to a
full-tile repaint: its scaled intersection with the tile's pixel rectangle,
once rounded out, spans the tile's full width or full height. -/
def rectEscalates (x y : Int) (tileWidth tileHeight : ℚ) (scale : ℚ)
    (a : SkIRect) : Bool :=
  match intersectWithRect x y tileWidth tileHeight scale (toSkRect a) with
  | none => false
  | some realTileRect =>
    let finalRealRect := realTileRect.roundOut
    (finalRealRect.width : ℚ) = tileWidth || (finalRealRect.height : ℚ) = tileHeight

/-- The full-repaint decision of `paintBitmap` given the snapshot: the active
slot's flag, a buffer-size mismatch or surface-texture mode force it; otherwise
the loop over the dirty region's rectangles may escalate.  (In surface-texture
mode `fullRepaint` is already true before the loop, so the loop body's
surface-mode escalation never runs; renderer calls do not change tile state.) -/
def computesFullRepaint (mode : SharedTextureMode) (slotFullRepaint : Bool)
    (bufWidth bufHeight : Int) (tileWidth tileHeight : ℚ) (x y : Int)
    (scale : ℚ) (area : SkRegion) : Bool :=
  let base := slotFullRepaint || (bufWidth : ℚ) ≠ tileWidth
      || (bufHeight : ℚ) ≠ tileHeight || mode = SurfaceTextureMode
  base || area.any (rectEscalates x y tileWidth tileHeight scale)

/-- Models `BaseTile::paintBitmap()`.  External data fed back by collaborators:
`ownerOk` is `texture->owner() == this` at the check after `producerLock`;
`tileWidth`/`tileHeight` are `texture->getSize()`; `bufWidth`/`bufHeight` are
`textureInfo->m_width/m_height`.  Sequential execution: no concurrent mutation
happens between the snapshot and the completion section, so the final
`texture == m_backTexture` and `m_scale != scale` re-checks see the snapshot
values. -/
def paintBitmap (s : BaseTile) (ownerOk : Bool) (tileWidth tileHeight : ℚ)
    (bufWidth bufHeight : Int) : BaseTile :=
  -- snapshot under lock
  let dirty := s.dirty
  let texture := s.backTexture
  let area := s.dirtyArea.getD s.currentDirtyAreaIndex []
  let scale := s.scale
  if ¬dirty ∨ texture = none then s
  else if ¬ownerOk then s  -- texture->owner() != this: producerRelease and abort
  else
    let fullRepaint :=
      computesFullRepaint s.sharedTextureMode
        (s.fullRepaint.getD s.currentDirtyAreaIndex false)
        bufWidth bufHeight tileWidth tileHeight s.x s.y scale area
    -- completion under lock; texture == m_backTexture holds sequentially
    let idx := s.currentDirtyAreaIndex
    let area₁ : SkRegion :=
      if fullRepaint then [] else (s.dirtyArea.getD idx []).opDifference area
    let dirtyAreas := s.dirtyArea.set idx area₁
    let dirty₁ := s.scale ≠ scale
    let dirty₂ := dirty₁ ∨ ¬(dirtyAreas.getD idx []).isEmpty
    let idx' := (idx + 1) % s.maxBufferNumber
    let dirty₃ := dirty₂ ∨ ¬(dirtyAreas.getD idx' []).isEmpty
    { s with
      isTexturePainted := true
      fullRepaint := s.fullRepaint.set idx false
      dirty := decide dirty₃
      dirtyArea := dirtyAreas
      currentDirtyAreaIndex := idx'
      isSwapNeeded := if ¬dirty₃ then true else s.isSwapNeeded }

/-- Holds when `paintBitmap` gets past its abort checks (snapshot says dirty, a back
texture exists, and the ownership re-check passes). -/
def paintProceeds (s : BaseTile) (ownerOk : Bool) : Prop :=
  s.dirty = true ∧ s.backTexture ≠ none ∧ ownerOk = true

instance (s : BaseTile) (ownerOk : Bool) : Decidable (paintProceeds s ownerOk) := by
  unfold paintProceeds; infer_instance

end BaseTile

/-- One call into the tile's public interface, with the data the external
collaborators (tiles manager, texture pool, renderer) feed into it. -/
inductive Op where
  | setContents (painter : Option Nat) (x y : Int) (scale : ℚ) (newDrawCount : Nat)
  | reserveTexture (texture : Option Nat)
  | removeTexture (texture : Nat)
  | fullInval
  | markAsDirty (pictureCount : Nat) (area : SkRegion)
  | paintBitmap (ownerOk : Bool) (tileWidth tileHeight : ℚ) (bufWidth bufHeight : Int)
  | swapTexturesIfNeeded
  | discardTextures
  deriving DecidableEq

namespace BaseTile

/-- Apply one operation to the tile state. -/
def step (s : BaseTile) : Op → BaseTile
  | .setContents p x y sc d => s.setContents p x y sc d
  | .reserveTexture tex => s.reserveTexture tex
  | .removeTexture tex => (s.removeTexture tex).2
  | .fullInval => s.fullInval
  | .markAsDirty pc area => s.markAsDirty pc area
  | .paintBitmap ok tw th bw bh => s.paintBitmap ok tw th bw bh
  | .swapTexturesIfNeeded => (s.swapTexturesIfNeeded).2
  | .discardTextures => s.discardTextures

/-- Run a sequence of operations from a state. -/
def run (s : BaseTile) (ops : List Op) : BaseTile := ops.foldl step s

/-- The operation is a `paintBitmap` call that, from state `s`, gets past the
abort checks and completes with the recomputed dirty flag false. -/
def paintCompletedClean (s : BaseTile) : Op → Prop
  | .paintBitmap ok tw th bw bh =>
      paintProceeds s ok ∧ (s.paintBitmap ok tw th bw bh).dirty = false
  | _ => False

/-- Front and back texture references, when both present, differ. -/
def frontBackDistinct (s : BaseTile) : Prop :=
  ∀ tex : Nat, s.frontTexture = some tex → s.backTexture ≠ some tex

/-- A freshly constructed non-layer tile in surface-texture mode (one buffer
slot), used to instantiate universally quantified theorems. -/
def sampleTile : BaseTile := init false SurfaceTextureMode

/-- A tile holding distinct front and back texture references, used to
instantiate universally quantified theorems. -/
def sampleTile2 : BaseTile :=
  { init false EglImageMode with frontTexture := some 1, backTexture := some 2 }

/-- A tile with a pending swap, used to instantiate universally quantified
theorems. -/
def sampleTile3 : BaseTile :=
  { init false SurfaceTextureMode with
    backTexture := some 4
    dirty := false
    isSwapNeeded := true }

/-- An EglImage-mode (two buffer slots) tile holding a back texture, right
after `markAsDirty(1, {(0,0,1,1)})`. -/
def c1Tile : BaseTile :=
  ((init false EglImageMode).reserveTexture (some 0)).markAsDirty 1 [⟨0, 0, 1, 1⟩]

/-- A surface-texture-mode (one buffer slot) tile holding a back texture. -/
def c1PreTile : BaseTile := (init false SurfaceTextureMode).reserveTexture (some 0)

/-- An EglImage-mode tile at grid (2,3), scale 1, holding front and back
textures, with both slots already painted once (full-repaint flags cleared)
and clean. -/
def c3Tile : BaseTile :=
  { init false EglImageMode with
    painter := some 0
    x := 2
    y := 3
    frontTexture := some 1
    backTexture := some 0
    dirty := false
    fullRepaint := [false, false] }

/-- The dirty rectangle of the C3 scenario, in content space. -/
def c3Rect : SkIRect := ⟨260, 300, 520, 556⟩

/-- A content-space rectangle whose intersection with tile (2,3)'s pixel
rectangle spans the tile's full height. -/
def c3RectFullHeight : SkIRect := ⟨260, 768, 520, 1024⟩

/-- A call trace that reserves a texture, dirties the tile, and paints it
clean (so that afterwards a swap is pending). -/
def cleanPaintTrace : List Op :=
  [Op.reserveTexture (some 0), Op.markAsDirty 1 [⟨0, 0, 1, 1⟩],
   Op.paintBitmap true 256 256 256 256]

/-- The trace `cleanPaintTrace` followed by a swap and a `reserveTexture` in which the
pool hands back the very texture that just became the front one. -/
def stealFrontTrace : List Op :=
  cleanPaintTrace ++ [Op.swapTexturesIfNeeded, Op.reserveTexture (some 0)]

end BaseTile

namespace BaseTile

/-- C4: `swapTexturesIfNeeded()` returns true exactly when `m_isSwapNeeded`
holds at entry; on true it promotes the back slot to front, clears the back
reference and the swap flag, and changes nothing else; on false it changes
nothing; and a second call right after any call returns false. -/
theorem claim4_swapTexturesIfNeeded_spec (s : BaseTile) :
    (s.swapTexturesIfNeeded).1 = s.isSwapNeeded
    ∧ (s.isSwapNeeded = true →
        (s.swapTexturesIfNeeded).2 =
          { s with frontTexture := s.backTexture, backTexture := none,
                   isSwapNeeded := false })
    ∧ (s.isSwapNeeded = false → (s.swapTexturesIfNeeded).2 = s)
    ∧ ((s.swapTexturesIfNeeded).2.swapTexturesIfNeeded).1 = false := by
  unfold swapTexturesIfNeeded
  rcases h : s.isSwapNeeded <;> simp [h]

/-- Witness for C4 at a concrete swap-pending tile and a concrete idle tile. -/
theorem claim4_witness :
    ((sampleTile3.swapTexturesIfNeeded).2 =
      { sampleTile3 with frontTexture := sampleTile3.backTexture,
                         backTexture := none, isSwapNeeded := false })
    ∧ (sampleTile.swapTexturesIfNeeded).2 = sampleTile := by
  exact ⟨(claim4_swapTexturesIfNeeded_spec sampleTile3).2.1 (by decide),
         (claim4_swapTexturesIfNeeded_spec sampleTile).2.2.1 (by decide)⟩

/-- C8: `removeTexture(tex)` always returns true; when `tex` is the front slot
it clears the front reference and sets `m_dirty`; when `tex` is the back slot
(and not the front) it clears the back reference leaving `m_dirty` unchanged;
when it is neither, the state is unchanged; and in all cases every other field
is untouched. -/
theorem claim8_removeTexture_spec (s : BaseTile) (tex : Nat) :
    (s.removeTexture tex).1 = true
    ∧ (s.frontTexture = some tex →
        (s.removeTexture tex).2.frontTexture = none
        ∧ (s.removeTexture tex).2.dirty = true)
    ∧ (s.backTexture = some tex → (s.removeTexture tex).2.backTexture = none)
    ∧ (s.backTexture = some tex → s.frontTexture ≠ some tex →
        (s.removeTexture tex).2.dirty = s.dirty)
    ∧ (s.frontTexture ≠ some tex → s.backTexture ≠ some tex →
        (s.removeTexture tex).2 = s)
    ∧ (s.removeTexture tex).2.painter = s.painter
    ∧ (s.removeTexture tex).2.x = s.x
    ∧ (s.removeTexture tex).2.y = s.y
    ∧ (s.removeTexture tex).2.scale = s.scale
    ∧ (s.removeTexture tex).2.dirtyArea = s.dirtyArea
    ∧ (s.removeTexture tex).2.fullRepaint = s.fullRepaint
    ∧ (s.removeTexture tex).2.isSwapNeeded = s.isSwapNeeded
    ∧ (s.removeTexture tex).2.isTexturePainted = s.isTexturePainted
    ∧ (s.removeTexture tex).2.lastDirtyPicture = s.lastDirtyPicture
    ∧ (s.removeTexture tex).2.currentDirtyAreaIndex = s.currentDirtyAreaIndex
    ∧ (s.removeTexture tex).2.repaintPending = s.repaintPending
    ∧ (s.removeTexture tex).2.maxBufferNumber = s.maxBufferNumber := by
  unfold removeTexture
  by_cases hf : s.frontTexture = some tex <;>
    by_cases hb : s.backTexture = some tex <;>
    simp [hf, hb]

/-- Witness for C8: the front case, the back case and the neither case at
concrete tiles. -/
theorem claim8_witness :
    ((sampleTile2.removeTexture 1).2.frontTexture = none
      ∧ (sampleTile2.removeTexture 1).2.dirty = true)
    ∧ ((sampleTile2.removeTexture 2).2.backTexture = none
      ∧ (sampleTile2.removeTexture 2).2.dirty = sampleTile2.dirty)
    ∧ (sampleTile2.removeTexture 3).2 = sampleTile2 := by
  refine ⟨⟨((claim8_removeTexture_spec sampleTile2 1).2.1 rfl).1,
          ((claim8_removeTexture_spec sampleTile2 1).2.1 rfl).2⟩,
         ⟨(claim8_removeTexture_spec sampleTile2 2).2.2.1 rfl,
          (claim8_removeTexture_spec sampleTile2 2).2.2.2.1 rfl (by decide)⟩,
         (claim8_removeTexture_spec sampleTile2 3).2.2.2.2.1 (by decide) (by decide)⟩

/-- C10: `reserveTexture()` is a no-op when the pool returns no texture or the
texture already installed as back; otherwise it installs the new back slot,
clears `m_isSwapNeeded`, forces `m_dirty` exactly when the front slot is
absent, and changes nothing else. -/
theorem claim10_reserveTexture_spec (s : BaseTile) (tex : Nat) :
    s.reserveTexture none = s
    ∧ (s.backTexture = some tex → s.reserveTexture (some tex) = s)
    ∧ (s.backTexture ≠ some tex →
        (s.reserveTexture (some tex)).backTexture = some tex
        ∧ (s.reserveTexture (some tex)).isSwapNeeded = false
        ∧ (s.frontTexture = none → (s.reserveTexture (some tex)).dirty = true)
        ∧ (s.frontTexture ≠ none → (s.reserveTexture (some tex)).dirty = s.dirty)
        ∧ (s.reserveTexture (some tex)).frontTexture = s.frontTexture
        ∧ (s.reserveTexture (some tex)).painter = s.painter
        ∧ (s.reserveTexture (some tex)).x = s.x
        ∧ (s.reserveTexture (some tex)).y = s.y
        ∧ (s.reserveTexture (some tex)).scale = s.scale
        ∧ (s.reserveTexture (some tex)).dirtyArea = s.dirtyArea
        ∧ (s.reserveTexture (some tex)).fullRepaint = s.fullRepaint
        ∧ (s.reserveTexture (some tex)).isTexturePainted = s.isTexturePainted
        ∧ (s.reserveTexture (some tex)).lastDirtyPicture = s.lastDirtyPicture
        ∧ (s.reserveTexture (some tex)).currentDirtyAreaIndex
            = s.currentDirtyAreaIndex
        ∧ (s.reserveTexture (some tex)).maxBufferNumber = s.maxBufferNumber) := by
  unfold reserveTexture
  by_cases hb : s.backTexture = some tex <;>
    by_cases hf : s.frontTexture = none <;>
    simp [hb, hf]

theorem updBelow_getD {α : Type} (n i : Nat) (f : α → α) (l : List α) (d : α)
    (h : i < l.length) :
    (updBelow n f l).getD i d = if i < n then f (l.getD i d) else l.getD i d := by
  unfold updBelow
  rw [List.getD_eq_getElem _ _ (by simpa using h), List.getD_eq_getElem _ _ h]
  simp [List.getElem_mapIdx]

/-- C6: when `setContents` changes any of painter, x, y or scale, it empties
every slot's dirty region, forces every slot's full-repaint flag, sets
`m_dirty`, and installs the new identity; when nothing changes, the dirty
regions and flags are untouched. -/
theorem claim6_setContents_spec (s : BaseTile) (p : Option Nat) (x y : Int)
    (sc : ℚ) (d : Nat)
    (hW1 : s.dirtyArea.length = s.maxBufferNumber)
    (hW2 : s.fullRepaint.length = s.maxBufferNumber) :
    ((s.painter ≠ p ∨ s.x ≠ x ∨ s.y ≠ y ∨ s.scale ≠ sc) →
      (∀ i, i < s.maxBufferNumber →
        (s.setContents p x y sc d).dirtyArea.getD i [] = ([] : SkRegion)
        ∧ (s.setContents p x y sc d).fullRepaint.getD i false = true)
      ∧ (s.setContents p x y sc d).dirty = true)
    ∧ ((s.setContents p x y sc d).painter = p
       ∧ (s.setContents p x y sc d).x = x
       ∧ (s.setContents p x y sc d).y = y
       ∧ (s.setContents p x y sc d).scale = sc)
    ∧ (¬(s.painter ≠ p ∨ s.x ≠ x ∨ s.y ≠ y ∨ s.scale ≠ sc) →
      (s.setContents p x y sc d).dirtyArea = s.dirtyArea
      ∧ (s.setContents p x y sc d).fullRepaint = s.fullRepaint
      ∧ (s.setContents p x y sc d).dirty = s.dirty) := by
  by_cases hd : s.painter ≠ p ∨ s.x ≠ x ∨ s.y ≠ y ∨ s.scale ≠ sc
  · have hs : s.setContents p x y sc d
        = { s.fullInval with
            painter := p
            x := x
            y := y
            scale := sc
            drawCount := d } := by
      unfold setContents
      rw [if_pos hd]
    rw [hs]
    refine ⟨fun _ => ⟨fun i hi => ⟨?_, ?_⟩, rfl⟩, ⟨rfl, rfl, rfl, rfl⟩,
            fun h => absurd hd h⟩
    · show (updBelow s.maxBufferNumber (fun _ => ([] : SkRegion))
          s.dirtyArea).getD i [] = ([] : SkRegion)
      rw [updBelow_getD _ _ _ _ _ (by rw [hW1]; exact hi)]
      simp [hi]
    · show (updBelow s.maxBufferNumber (fun _ => true)
          s.fullRepaint).getD i false = true
      rw [updBelow_getD _ _ _ _ _ (by rw [hW2]; exact hi)]
      simp [hi]
  · simp [setContents, hd]

/-- Witness for C6: a changed identity empties slot 0 and forces its repaint
flag; an unchanged identity leaves the dirty bookkeeping alone. -/
theorem claim6_witness :
    ((sampleTile.setContents (some 0) 5 6 2 9).dirtyArea.getD 0 [] = ([] : SkRegion)
      ∧ (sampleTile.setContents (some 0) 5 6 2 9).fullRepaint.getD 0 false = true)
    ∧ (sampleTile.setContents (some 0) 5 6 2 9).dirty = true
    ∧ (sampleTile.setContents none (-1) (-1) 1 9).dirtyArea = sampleTile.dirtyArea
    ∧ (sampleTile.setContents none (-1) (-1) 1 9).dirty = sampleTile.dirty := by
  have h1 := claim6_setContents_spec sampleTile (some 0) 5 6 2 9 (by decide) (by decide)
  have h2 := claim6_setContents_spec sampleTile none (-1) (-1) 1 9 (by decide) (by decide)
  exact ⟨(h1.1 (by decide)).1 0 (by decide), (h1.1 (by decide)).2,
         (h2.2.2 (by decide)).1, (h2.2.2 (by decide)).2.2⟩

/-- C7: `markAsDirty(v, R)` with an empty region changes nothing at all; with a
nonempty region it unions `R` into every buffer slot's dirty region, sets
`m_dirty`, stores `v` as `m_lastDirtyPicture` unconditionally (no comparison
with the previously stored version is made), and touches nothing else. -/
theorem claim7_markAsDirty_spec (s : BaseTile) (v : Nat) (R : SkRegion)
    (hW : s.dirtyArea.length = s.maxBufferNumber) :
    (R.isEmpty = true → s.markAsDirty v R = s)
    ∧ (R.isEmpty = false →
        (∀ i, i < s.maxBufferNumber →
          (s.markAsDirty v R).dirtyArea.getD i []
            = (s.dirtyArea.getD i []).opUnion R)
        ∧ (s.markAsDirty v R).dirty = true
        ∧ (s.markAsDirty v R).lastDirtyPicture = v
        ∧ (s.markAsDirty v R).frontTexture = s.frontTexture
        ∧ (s.markAsDirty v R).backTexture = s.backTexture
        ∧ (s.markAsDirty v R).isSwapNeeded = s.isSwapNeeded
        ∧ (s.markAsDirty v R).fullRepaint = s.fullRepaint
        ∧ (s.markAsDirty v R).isTexturePainted = s.isTexturePainted
        ∧ (s.markAsDirty v R).currentDirtyAreaIndex = s.currentDirtyAreaIndex
        ∧ (s.markAsDirty v R).painter = s.painter
        ∧ (s.markAsDirty v R).x = s.x
        ∧ (s.markAsDirty v R).y = s.y
        ∧ (s.markAsDirty v R).scale = s.scale
        ∧ (s.markAsDirty v R).maxBufferNumber = s.maxBufferNumber) := by
  by_cases he : R.isEmpty
  · simp [markAsDirty, he]
  · have hs : s.markAsDirty v R
        = { s with
            lastDirtyPicture := v
            dirtyArea := updBelow s.maxBufferNumber (fun R' => R'.opUnion R)
              s.dirtyArea
            dirty := true } := by
      unfold markAsDirty
      rw [if_neg he]
    rw [hs]
    refine ⟨fun h => absurd h he, fun _ =>
      ⟨fun i hi => ?_, rfl, rfl, rfl, rfl, rfl, rfl, rfl, rfl, rfl, rfl, rfl,
       rfl, rfl⟩⟩
    show (updBelow s.maxBufferNumber (fun R' => R'.opUnion R)
        s.dirtyArea).getD i [] = _
    rw [updBelow_getD _ _ _ _ _ (by rw [hW]; exact hi)]
    simp [hi]

/-- Witness for C7 at a concrete tile: the empty-region no-op, and a nonempty
region (with a version smaller than the stored one) reaching every slot. -/
theorem claim7_witness :
    sampleTile3.markAsDirty 3 [] = sampleTile3
    ∧ ({ sampleTile3 with lastDirtyPicture := 10 }.markAsDirty
          3 [⟨0, 0, 1, 1⟩]).dirtyArea.getD 0 []
        = (({ sampleTile3 with lastDirtyPicture := 10 }).dirtyArea.getD 0
            []).opUnion [⟨0, 0, 1, 1⟩]
    ∧ ({ sampleTile3 with lastDirtyPicture := 10 }.markAsDirty
          3 [⟨0, 0, 1, 1⟩]).lastDirtyPicture = 3 := by
  have h1 := claim7_markAsDirty_spec sampleTile3 3 [] (by decide)
  have h2 := claim7_markAsDirty_spec { sampleTile3 with lastDirtyPicture := 10 }
    3 [⟨0, 0, 1, 1⟩] (by decide)
  exact ⟨h1.1 (by decide), (h2.2 (by decide)).1 0 (by decide),
         (h2.2 (by decide)).2.2.1⟩

/-- Witness for C10: the installing case (front absent), and the no-op cases,
at concrete tiles. -/
theorem claim10_witness :
    (sampleTile.reserveTexture (some 7)).backTexture = some 7
    ∧ (sampleTile.reserveTexture (some 7)).dirty = true
    ∧ (sampleTile.reserveTexture (some 7)).isSwapNeeded = false
    ∧ sampleTile.reserveTexture none = sampleTile
    ∧ sampleTile2.reserveTexture (some 2) = sampleTile2
    ∧ (sampleTile2.reserveTexture (some 9)).dirty = sampleTile2.dirty := by
  refine ⟨((claim10_reserveTexture_spec sampleTile 7).2.2 (by decide)).1,
         ((claim10_reserveTexture_spec sampleTile 7).2.2 (by decide)).2.2.1 rfl,
         ((claim10_reserveTexture_spec sampleTile 7).2.2 (by decide)).2.1,
         (claim10_reserveTexture_spec sampleTile 7).1,
         (claim10_reserveTexture_spec sampleTile2 2).2.1 rfl,
         ((claim10_reserveTexture_spec sampleTile2 9).2.2 (by decide)).2.2.2.1
           (by decide)⟩

end BaseTile

namespace BaseTile

/-- Counterexample to C2: on a freshly constructed one-buffer tile,
`reserveTexture()` leaves the active dirty region empty, yet the following
`paintBitmap()` is not a no-op — it paints (the slot's full-repaint flag is
still set from construction) and sets `m_isTexturePainted`. -/
theorem claim2_counterexample :
    (((sampleTile.reserveTexture (some 0)).dirtyArea.getD 0 []).isEmpty = true)
    ∧ ((sampleTile.reserveTexture (some 0)).paintBitmap true 256 256 256
        256).isTexturePainted = true
    ∧ (sampleTile.reserveTexture (some 0)).paintBitmap true 256 256 256 256
        ≠ sampleTile.reserveTexture (some 0) := by
  refine ⟨by decide, by decide, by decide⟩

/-- C2 (amended): on a freshly constructed tile with one buffer slot and no
front or back texture, `reserveTexture()` installs the obtained slot as the
back texture and forces `m_dirty`; the active dirty region is empty, but the
subsequent `paintBitmap()` is not a no-op: since `m_dirty` holds and a back
texture exists it proceeds, escalates to a full repaint (the slot still has
its construction-time full-repaint flag), and sets `m_isTexturePainted`. -/
theorem claim2_reserve_then_paint (layerTile : Bool) (tex : Nat) (tw th : ℚ)
    (bw bh : Int) :
    ((init layerTile SurfaceTextureMode).reserveTexture (some tex)).backTexture
        = some tex
    ∧ ((init layerTile SurfaceTextureMode).reserveTexture (some tex)).dirty = true
    ∧ ((((init layerTile SurfaceTextureMode).reserveTexture
          (some tex)).dirtyArea.getD 0 []).isEmpty = true)
    ∧ computesFullRepaint SurfaceTextureMode
        ((((init layerTile SurfaceTextureMode).reserveTexture
            (some tex))).fullRepaint.getD 0 false) bw bh tw th (-1) (-1) 1
        ((((init layerTile SurfaceTextureMode).reserveTexture
            (some tex))).dirtyArea.getD 0 []) = true
    ∧ (((init layerTile SurfaceTextureMode).reserveTexture
          (some tex)).paintBitmap true tw th bw bh).isTexturePainted = true := by
  refine ⟨?_, ?_, ?_, ?_, ?_⟩ <;>
    simp [init, reserveTexture, paintBitmap, computesFullRepaint,
          SkRegion.isEmpty]

end BaseTile

namespace BaseTile

theorem computesFullRepaint_eq_true_of_any {mode : SharedTextureMode}
    {slotFull : Bool} {bw bh : Int} {tw th : ℚ} {x y : Int} {sc : ℚ}
    {area : SkRegion} (h : area.any (rectEscalates x y tw th sc) = true) :
    computesFullRepaint mode slotFull bw bh tw th x y sc area = true := by
  unfold computesFullRepaint
  simp [h]

theorem computesFullRepaint_eq_false_of {mode : SharedTextureMode}
    {slotFull : Bool} {bw bh : Int} {tw th : ℚ} {x y : Int} {sc : ℚ}
    {area : SkRegion} (h1 : slotFull = false) (h2 : (bw : ℚ) = tw)
    (h3 : (bh : ℚ) = th) (h4 : mode ≠ SurfaceTextureMode)
    (h5 : area.any (rectEscalates x y tw th sc) = false) :
    computesFullRepaint mode slotFull bw bh tw th x y sc area = false := by
  unfold computesFullRepaint
  subst h1 h2 h3
  simp [h4, h5]

/-- Counterexample to C3: for the tile at grid (2,3), scale 1, tile size
256×256, the dirty rectangle (260,300,520,556) does not even intersect the
tile's pixel rectangle [512,768]×[768,1024] (the y-ranges are disjoint), so
the `paintBitmap` loop does not escalate to a full-tile repaint. -/
theorem claim3_counterexample :
    c3Tile.x = 2 ∧ c3Tile.y = 3 ∧ c3Tile.scale = 1
    ∧ c3Tile.sharedTextureMode = EglImageMode
    ∧ ((c3Tile.markAsDirty 5 [c3Rect]).fullRepaint.getD
        (c3Tile.markAsDirty 5 [c3Rect]).currentDirtyAreaIndex false = false)
    ∧ ((c3Tile.markAsDirty 5 [c3Rect]).dirtyArea.getD
        (c3Tile.markAsDirty 5 [c3Rect]).currentDirtyAreaIndex [] = [c3Rect])
    ∧ intersectWithRect 2 3 256 256 1 (toSkRect c3Rect) = none
    ∧ rectEscalates 2 3 256 256 1 c3Rect = false
    ∧ computesFullRepaint EglImageMode false 256 256 256 256 2 3 1 [c3Rect]
        = false := by
  have h1 : intersectWithRect 2 3 256 256 1 (toSkRect c3Rect) = none := by
    simp only [intersectWithRect, toSkRect, c3Rect]
    norm_num
  have h2 : rectEscalates 2 3 256 256 1 c3Rect = false := by
    unfold rectEscalates
    rw [h1]
  refine ⟨by decide, by decide, by decide, by decide, by decide, by decide,
         h1, h2, ?_⟩
  exact computesFullRepaint_eq_false_of rfl (by norm_num) (by norm_num)
    (by simp) (by simp [List.any_cons, List.any_nil, h2])

end BaseTile

namespace BaseTile

/-- C3 (amended): for the tile at grid (2,3), scale 1, full-tile size 256×256,
a `markAsDirty(5, {(260,768,520,1024)})` followed by `paintBitmap()` escalates
to a full-tile repaint: the rectangle's intersection with the tile's pixel
rectangle is [512,520]×[768,1024], which spans the tile's full height (256),
so the loop escalates and the paint empties the active dirty region wholesale.
(The rectangle of the original claim, (260,300,520,556), does not intersect
the tile's pixel rectangle at all.) -/
theorem claim3_full_height_escalation :
    intersectWithRect 2 3 256 256 1 (toSkRect c3RectFullHeight)
        = some ⟨512, 768, 520, 1024⟩
    ∧ (SkRect.roundOut ⟨512, 768, 520, 1024⟩).height = 256
    ∧ (SkRect.roundOut ⟨512, 768, 520, 1024⟩).width = 8
    ∧ rectEscalates 2 3 256 256 1 c3RectFullHeight = true
    ∧ computesFullRepaint EglImageMode false 256 256 256 256 2 3 1
        [c3RectFullHeight] = true
    ∧ ((c3Tile.markAsDirty 5 [c3RectFullHeight]).paintBitmap true 256 256 256
        256).dirtyArea.getD 0 [] = ([] : SkRegion) := by
  have h1 : intersectWithRect 2 3 256 256 1 (toSkRect c3RectFullHeight)
      = some ⟨512, 768, 520, 1024⟩ := by
    simp only [intersectWithRect, toSkRect, c3RectFullHeight]
    norm_num
  have hr : SkRect.roundOut ⟨512, 768, 520, 1024⟩ = ⟨512, 768, 520, 1024⟩ := by
    simp only [SkRect.roundOut]
    norm_num
  have h2 : rectEscalates 2 3 256 256 1 c3RectFullHeight = true := by
    unfold rectEscalates
    rw [h1]
    simp only [hr, SkIRect.width, SkIRect.height, Bool.or_eq_true,
               decide_eq_true_eq]
    norm_num
  have h3 : computesFullRepaint EglImageMode false 256 256 256 256 2 3 1
      [c3RectFullHeight] = true :=
    computesFullRepaint_eq_true_of_any (by simp [List.any_cons, h2])
  have hm : c3Tile.markAsDirty 5 [c3RectFullHeight] =
      { painter := some 0
        x := 2
        y := 3
        frontTexture := some 1
        backTexture := some 0
        scale := 1
        dirty := true
        repaintPending := false
        lastDirtyPicture := 5
        isTexturePainted := false
        isLayerTile := false
        isSwapNeeded := false
        drawCount := 0
        currentDirtyAreaIndex := 0
        maxBufferNumber := 2
        dirtyArea := [[c3RectFullHeight], [c3RectFullHeight]]
        fullRepaint := [false, false]
        sharedTextureMode := EglImageMode } := by decide
  refine ⟨h1, by rw [hr]; norm_num [SkIRect.height],
         by rw [hr]; norm_num [SkIRect.width], h2, h3, ?_⟩
  rw [hm]
  unfold paintBitmap
  rw [if_neg (by simp)]
  rw [if_neg (by simp)]
  simp [h3]

end BaseTile

namespace BaseTile

theorem opUnion_isEmpty_false {B R : SkRegion} (h : R.isEmpty = false) :
    (B.opUnion R).isEmpty = false := by
  simp [SkRegion.isEmpty, SkRegion.opUnion, List.all_append] at h ⊢
  intro hB
  exact h

/-- Counterexample to C1: with two buffer slots (EglImage mode), a
`markAsDirty` with a nonempty region followed by a full-repaint
`paintBitmap()` — scale unchanged and the back texture untouched throughout —
empties the dirty region of the slot that was active at paint time, but
leaves `m_dirty` *true*: the region was recorded in the other slot too, and
the rotated-to slot still carries it (so no swap becomes pending either). -/
theorem claim1_counterexample :
    ([(⟨0, 0, 1, 1⟩ : SkIRect)] : SkRegion).isEmpty = false
    ∧ c1Tile.maxBufferNumber = 2
    ∧ paintProceeds c1Tile true
    ∧ computesFullRepaint c1Tile.sharedTextureMode
        (c1Tile.fullRepaint.getD c1Tile.currentDirtyAreaIndex false)
        256 256 256 256 c1Tile.x c1Tile.y c1Tile.scale
        (c1Tile.dirtyArea.getD c1Tile.currentDirtyAreaIndex []) = true
    ∧ (((c1Tile.paintBitmap true 256 256 256 256).dirtyArea.getD 0 []).isEmpty
        = true)
    ∧ (c1Tile.paintBitmap true 256 256 256 256).dirty = true
    ∧ (c1Tile.paintBitmap true 256 256 256 256).isSwapNeeded = false := by
  refine ⟨by decide, by decide, by decide, by decide, by decide, by decide,
         by decide⟩

/-- C1 (amended): a `markAsDirty(v, R)` with nonempty `R` followed immediately
by a `paintBitmap()` that performs a full repaint (sequentially, so scale and
back texture are stable) always leaves the dirty region of the slot that was
active at paint time empty; with buffer count 1 the tile's dirty flag is then
false (and a swap becomes pending), but with buffer count 2 the dirty flag
remains true, because `markAsDirty` recorded `R` in every slot and the newly
active slot still carries it. -/
theorem claim1_roundTrip_spec :
    (∀ (s : BaseTile) (v : Nat) (R : SkRegion) (ok : Bool) (tw th : ℚ)
        (bw bh : Int),
      s.maxBufferNumber = 1 →
      s.currentDirtyAreaIndex < s.maxBufferNumber →
      s.dirtyArea.length = 1 →
      R.isEmpty = false → s.backTexture ≠ none → ok = true →
      computesFullRepaint s.sharedTextureMode
          (s.fullRepaint.getD s.currentDirtyAreaIndex false)
          bw bh tw th s.x s.y s.scale
          ((s.dirtyArea.getD s.currentDirtyAreaIndex []).opUnion R) = true →
      ((((s.markAsDirty v R).paintBitmap ok tw th bw bh).dirtyArea.getD
          s.currentDirtyAreaIndex []).isEmpty = true)
      ∧ ((s.markAsDirty v R).paintBitmap ok tw th bw bh).dirty = false
      ∧ ((s.markAsDirty v R).paintBitmap ok tw th bw bh).isSwapNeeded = true)
    ∧ (∀ (s : BaseTile) (v : Nat) (R : SkRegion) (ok : Bool) (tw th : ℚ)
        (bw bh : Int),
      s.maxBufferNumber = 2 →
      s.currentDirtyAreaIndex < s.maxBufferNumber →
      s.dirtyArea.length = 2 →
      R.isEmpty = false → s.backTexture ≠ none → ok = true →
      computesFullRepaint s.sharedTextureMode
          (s.fullRepaint.getD s.currentDirtyAreaIndex false)
          bw bh tw th s.x s.y s.scale
          ((s.dirtyArea.getD s.currentDirtyAreaIndex []).opUnion R) = true →
      ((((s.markAsDirty v R).paintBitmap ok tw th bw bh).dirtyArea.getD
          s.currentDirtyAreaIndex []).isEmpty = true)
      ∧ ((s.markAsDirty v R).paintBitmap ok tw th bw bh).dirty = true) := by
  constructor
  · intro s v R ok tw th bw bh hbuf hidx hlen hR hback hok hfull
    subst hok
    rw [hbuf] at hidx
    have hidx0 : s.currentDirtyAreaIndex = 0 := by omega
    rw [hidx0] at hfull
    obtain ⟨A, hA⟩ := List.length_eq_one.mp hlen
    have hmark : s.markAsDirty v R = { s with
        lastDirtyPicture := v
        dirtyArea := [(s.dirtyArea.getD 0 []).opUnion R]
        dirty := true } := by
      unfold markAsDirty
      rw [if_neg (by simp [hR])]
      rw [hbuf, hA]
      simp [updBelow]
    rw [hmark]
    unfold paintBitmap
    rw [if_neg (by simp [hback])]
    rw [if_neg (by simp)]
    simp only [List.getD_eq_getElem?_getD] at hfull
    simp [hidx0, hbuf, hfull, SkRegion.isEmpty]
  · intro s v R ok tw th bw bh hbuf hidx hlen hR hback hok hfull
    subst hok
    rw [hbuf] at hidx
    obtain ⟨A, B, hAB⟩ := List.length_eq_two.mp hlen
    have hcase : s.currentDirtyAreaIndex = 0 ∨ s.currentDirtyAreaIndex = 1 := by
      omega
    rcases hcase with hidx0 | hidx1
    · rw [hidx0] at hfull
      have hBR : (B.opUnion R).isEmpty = false := opUnion_isEmpty_false hR
      have hmark : s.markAsDirty v R = { s with
          lastDirtyPicture := v
          dirtyArea := [(s.dirtyArea.getD 0 []).opUnion R, B.opUnion R]
          dirty := true } := by
        unfold markAsDirty
        rw [if_neg (by simp [hR])]
        rw [hbuf, hAB]
        simp [updBelow]
      rw [hmark]
      unfold paintBitmap
      rw [if_neg (by simp [hback])]
      rw [if_neg (by simp)]
      simp only [List.getD_eq_getElem?_getD] at hfull
      simp [hidx0, hbuf, hfull, SkRegion.isEmpty]
      simpa [SkRegion.isEmpty, List.all_eq_false] using hBR
    · rw [hidx1] at hfull
      have hAR : (A.opUnion R).isEmpty = false := opUnion_isEmpty_false hR
      have hmark : s.markAsDirty v R = { s with
          lastDirtyPicture := v
          dirtyArea := [A.opUnion R, (s.dirtyArea.getD 1 []).opUnion R]
          dirty := true } := by
        unfold markAsDirty
        rw [if_neg (by simp [hR])]
        rw [hbuf, hAB]
        simp [updBelow]
      rw [hmark]
      unfold paintBitmap
      rw [if_neg (by simp [hback])]
      rw [if_neg (by simp)]
      simp only [List.getD_eq_getElem?_getD] at hfull
      simp [hidx1, hbuf, hfull, SkRegion.isEmpty]
      simpa [SkRegion.isEmpty, List.all_eq_false] using hAR

/-- Witness for C1 at concrete one- and two-buffer tiles holding a back
texture whose active slot still has its full-repaint flag set, including a
two-buffer tile whose active slot is slot 1 (right after a completed paint
rotated the index). -/
theorem claim1_witness :
    (((c1PreTile.markAsDirty 1 [⟨0, 0, 1, 1⟩]).paintBitmap true 256 256 256
        256).dirty = false)
    ∧ (((c1PreTile.markAsDirty 1 [⟨0, 0, 1, 1⟩]).paintBitmap true 256 256 256
        256).isSwapNeeded = true)
    ∧ ((((init false EglImageMode).reserveTexture (some 0)).markAsDirty 1
          [⟨0, 0, 1, 1⟩]).paintBitmap true 256 256 256 256).dirty = true
    ∧ (((((init false EglImageMode).reserveTexture (some 0)).paintBitmap true
          256 256 256 256).markAsDirty 2 [⟨0, 0, 1, 1⟩]).paintBitmap true 256
          256 256 256).dirty = true := by
  refine ⟨(claim1_roundTrip_spec.1 c1PreTile 1 [⟨0, 0, 1, 1⟩] true 256 256 256
            256 (by decide) (by decide) (by decide) (by decide) (by decide)
            rfl (by decide)).2.1,
         (claim1_roundTrip_spec.1 c1PreTile 1 [⟨0, 0, 1, 1⟩] true 256 256 256
            256 (by decide) (by decide) (by decide) (by decide) (by decide)
            rfl (by decide)).2.2,
         (claim1_roundTrip_spec.2 ((init false EglImageMode).reserveTexture
            (some 0)) 1 [⟨0, 0, 1, 1⟩] true 256 256 256 256 (by decide)
            (by decide) (by decide) (by decide) (by decide) rfl
            (by decide)).2,
         (claim1_roundTrip_spec.2 (((init false EglImageMode).reserveTexture
            (some 0)).paintBitmap true 256 256 256 256) 2 [⟨0, 0, 1, 1⟩] true
            256 256 256 256 (by decide) (by decide) (by decide) (by decide)
            (by decide) rfl (by decide)).2⟩

end BaseTile

namespace BaseTile

theorem setContents_swapNeeded (s : BaseTile) (p : Option Nat) (x y : Int)
    (sc : ℚ) (d : Nat) :
    (s.setContents p x y sc d).isSwapNeeded = s.isSwapNeeded := by
  simp only [setContents, fullInval]
  split <;> rfl

theorem removeTexture_swapNeeded (s : BaseTile) (t : Nat) :
    (s.removeTexture t).2.isSwapNeeded = s.isSwapNeeded := by
  simp only [removeTexture]
  split <;> split <;> rfl

theorem markAsDirty_swapNeeded (s : BaseTile) (v : Nat) (R : SkRegion) :
    (s.markAsDirty v R).isSwapNeeded = s.isSwapNeeded := by
  simp only [markAsDirty]
  split <;> rfl

theorem reserveTexture_swapNeeded (s : BaseTile) (tex : Option Nat)
    (h : (s.reserveTexture tex).isSwapNeeded = true) : s.isSwapNeeded = true := by
  cases tex with
  | none => exact h
  | some t =>
    by_cases hb : s.backTexture = some t
    · simpa [reserveTexture, hb] using h
    · simp [reserveTexture, hb] at h

theorem swapTexturesIfNeeded_swapNeeded (s : BaseTile) :
    (s.swapTexturesIfNeeded).2.isSwapNeeded = false := by
  unfold swapTexturesIfNeeded
  by_cases h : s.isSwapNeeded = true
  · rw [if_pos h]
  · rw [if_neg h]
    simpa using h

theorem ite_true_cases {c : Prop} [Decidable c] {b : Bool}
    (h : (if c then true else b) = true) : c ∨ b = true := by
  split at h
  · exact Or.inl (by assumption)
  · exact Or.inr h

theorem paintBitmap_swapNeeded (s : BaseTile) (ok : Bool) (tw th : ℚ)
    (bw bh : Int)
    (h : (s.paintBitmap ok tw th bw bh).isSwapNeeded = true) :
    s.isSwapNeeded = true
    ∨ (paintProceeds s ok ∧ (s.paintBitmap ok tw th bw bh).dirty = false) := by
  revert h
  unfold paintBitmap
  by_cases h1 : ¬s.dirty = true ∨ s.backTexture = none
  · rw [if_pos h1]
    exact fun h => Or.inl h
  · rw [if_neg h1]
    by_cases h2 : ¬ok = true
    · rw [if_pos h2]
      exact fun h => Or.inl h
    · rw [if_neg h2]
      push_neg at h1 h2
      simp only []
      intro h
      rcases ite_true_cases h with hc | hb
      · exact Or.inr ⟨⟨h1.1, h1.2, h2⟩, decide_eq_false hc⟩
      · exact Or.inl hb

theorem step_swapNeeded (s : BaseTile) (op : Op)
    (h : (step s op).isSwapNeeded = true) :
    s.isSwapNeeded = true ∨ paintCompletedClean s op := by
  cases op with
  | setContents p x y sc d =>
    simp only [step] at h
    rw [setContents_swapNeeded] at h
    exact Or.inl h
  | reserveTexture tex =>
    simp only [step] at h
    exact Or.inl (reserveTexture_swapNeeded s tex h)
  | removeTexture t =>
    simp only [step] at h
    rw [removeTexture_swapNeeded] at h
    exact Or.inl h
  | fullInval => exact Or.inl h
  | markAsDirty v R =>
    simp only [step] at h
    rw [markAsDirty_swapNeeded] at h
    exact Or.inl h
  | paintBitmap ok tw th bw bh =>
    simp only [step] at h
    exact (paintBitmap_swapNeeded s ok tw th bw bh h).imp id id
  | swapTexturesIfNeeded =>
    simp only [step] at h
    rw [swapTexturesIfNeeded_swapNeeded] at h
    exact absurd h (by simp)
  | discardTextures => exact Or.inl h

theorem getD_append_left {α : Type} (xs ys : List α) (i : Nat) (d : α)
    (h : i < xs.length) : (xs ++ ys).getD i d = xs.getD i d := by
  rw [List.getD_eq_getElem _ _ (by simp; omega), List.getD_eq_getElem _ _ h]
  exact List.getElem_append_left h

theorem getD_append_length {α : Type} (xs : List α) (y : α) (d : α) :
    (xs ++ [y]).getD xs.length d = y := by
  rw [List.getD_eq_getElem _ _ (by simp)]
  simp

/-- C5: in every state reachable from construction by tile operations,
`m_isSwapNeeded` holds only if some earlier `paintBitmap()` call got past its
abort checks and completed with the recomputed dirty flag false: every other
operation either leaves the flag alone or clears it, so a pending swap always
traces back to such a paint. -/
theorem claim5_swapNeeded_origin (layerTile : Bool) (mode : SharedTextureMode)
    (ops : List Op)
    (h : (run (init layerTile mode) ops).isSwapNeeded = true) :
    ∃ i, i < ops.length
      ∧ paintCompletedClean (run (init layerTile mode) (ops.take i))
          (ops.getD i Op.fullInval) := by
  induction ops using List.reverseRecOn with
  | nil => simp [run, init] at h
  | append_singleton xs op ih =>
    have hstep : run (init layerTile mode) (xs ++ [op])
        = step (run (init layerTile mode) xs) op := by
      simp [run]
    rw [hstep] at h
    rcases step_swapNeeded _ _ h with hprev | hclean
    · obtain ⟨i, hi, hp⟩ := ih hprev
      refine ⟨i, by simp; omega, ?_⟩
      rw [List.take_append_of_le_length hi.le, getD_append_left _ _ _ _ hi]
      exact hp
    · refine ⟨xs.length, by simp, ?_⟩
      rw [List.take_left, getD_append_length]
      exact hclean

/-- Witness for C5: after reserving a texture, dirtying and painting clean,
a swap is pending, and the theorem locates the paint operation. -/
theorem claim5_witness :
    ∃ i, i < cleanPaintTrace.length
      ∧ paintCompletedClean
          (run (init false SurfaceTextureMode) (cleanPaintTrace.take i))
          (cleanPaintTrace.getD i Op.fullInval) :=
  claim5_swapNeeded_origin false SurfaceTextureMode cleanPaintTrace (by decide)

end BaseTile

namespace BaseTile

theorem setContents_frontBack (s : BaseTile) (p : Option Nat) (x y : Int)
    (sc : ℚ) (d : Nat) :
    (s.setContents p x y sc d).frontTexture = s.frontTexture
    ∧ (s.setContents p x y sc d).backTexture = s.backTexture := by
  simp only [setContents, fullInval]
  split <;> exact ⟨rfl, rfl⟩

theorem markAsDirty_frontBack (s : BaseTile) (v : Nat) (R : SkRegion) :
    (s.markAsDirty v R).frontTexture = s.frontTexture
    ∧ (s.markAsDirty v R).backTexture = s.backTexture := by
  simp only [markAsDirty]
  split <;> exact ⟨rfl, rfl⟩

theorem paintBitmap_frontBack (s : BaseTile) (ok : Bool) (tw th : ℚ)
    (bw bh : Int) :
    (s.paintBitmap ok tw th bw bh).frontTexture = s.frontTexture
    ∧ (s.paintBitmap ok tw th bw bh).backTexture = s.backTexture := by
  unfold paintBitmap
  by_cases h1 : ¬s.dirty = true ∨ s.backTexture = none
  · rw [if_pos h1]
    exact ⟨rfl, rfl⟩
  · rw [if_neg h1]
    by_cases h2 : ¬ok = true
    · rw [if_pos h2]
      exact ⟨rfl, rfl⟩
    · rw [if_neg h2]
      exact ⟨rfl, rfl⟩

theorem step_frontBackDistinct (s : BaseTile) (op : Op)
    (hs : frontBackDistinct s)
    (hres : ∀ t : Nat, op = Op.reserveTexture (some t) →
      s.frontTexture ≠ some t) :
    frontBackDistinct (step s op) := by
  cases op with
  | setContents p x y sc d =>
    intro u hu
    simp only [step] at hu ⊢
    rw [(setContents_frontBack s p x y sc d).2]
    rw [(setContents_frontBack s p x y sc d).1] at hu
    exact hs u hu
  | reserveTexture tex =>
    cases tex with
    | none => exact hs
    | some t =>
      by_cases hb : s.backTexture = some t
      · simpa [step, reserveTexture, hb] using hs
      · intro u hu heq
        simp only [step, reserveTexture, if_neg hb] at hu heq
        rw [Option.some_inj] at heq
        subst heq
        exact hres t rfl hu
  | removeTexture t =>
    show frontBackDistinct (s.removeTexture t).2
    unfold removeTexture
    simp only []
    split
    · split
      · intro u hu
        cases hu
      · intro u hu
        cases hu
    · split
      · intro u hu
        simp
      · exact hs
  | fullInval =>
    intro u hu
    exact hs u hu
  | markAsDirty v R =>
    intro u hu
    simp only [step] at hu ⊢
    rw [(markAsDirty_frontBack s v R).2]
    rw [(markAsDirty_frontBack s v R).1] at hu
    exact hs u hu
  | paintBitmap ok tw th bw bh =>
    intro u hu
    simp only [step] at hu ⊢
    rw [(paintBitmap_frontBack s ok tw th bw bh).2]
    rw [(paintBitmap_frontBack s ok tw th bw bh).1] at hu
    exact hs u hu
  | swapTexturesIfNeeded =>
    show frontBackDistinct (s.swapTexturesIfNeeded).2
    unfold swapTexturesIfNeeded
    split
    · intro u hu
      simp
    · exact hs
  | discardTextures =>
    intro u hu
    cases hu

/-- C9 (amended): in every state reachable from construction, the front and
back texture references, when both present, differ — provided the pool never
hands `reserveTexture` the very texture currently installed as the tile's
front texture (the code compares the obtained texture only against the back
one, so nothing stops such a pool answer from aliasing front and back). -/
theorem claim9_front_back_distinct (layerTile : Bool)
    (mode : SharedTextureMode) (ops : List Op)
    (hres : ∀ i, i < ops.length → ∀ t : Nat,
      ops.getD i Op.fullInval = Op.reserveTexture (some t) →
      (run (init layerTile mode) (ops.take i)).frontTexture ≠ some t) :
    frontBackDistinct (run (init layerTile mode) ops) := by
  induction ops using List.reverseRecOn with
  | nil =>
    intro u hu
    simp [run, init] at hu
  | append_singleton xs op ih =>
    have hstep : run (init layerTile mode) (xs ++ [op])
        = step (run (init layerTile mode) xs) op := by
      simp [run]
    rw [hstep]
    apply step_frontBackDistinct
    · apply ih
      intro i hi t hop
      have h' := hres i (by simp; omega) t
        (by rwa [getD_append_left _ _ _ _ hi])
      rwa [List.take_append_of_le_length hi.le] at h'
    · intro t hop
      have h' := hres xs.length (by simp) t (by rwa [getD_append_length])
      rwa [List.take_left] at h'

/-- Counterexample to C9: when the pool's `getAvailableTexture` answer is
unconstrained, `reserveTexture` can install the tile's own front texture as
the back texture — after a clean paint and swap make texture 0 the front,
reserving texture 0 again leaves front and back aliased. -/
theorem claim9_counterexample :
    (run (init false SurfaceTextureMode) stealFrontTrace).frontTexture = some 0
    ∧ (run (init false SurfaceTextureMode) stealFrontTrace).backTexture = some 0
    ∧ ¬ frontBackDistinct (run (init false SurfaceTextureMode)
        stealFrontTrace) := by
  refine ⟨by decide, by decide, fun hd => hd 0 (by decide) (by decide)⟩

/-- Witness for C9 on a concrete trace whose only `reserveTexture` happens
while the tile has no front texture. -/
theorem claim9_witness :
    frontBackDistinct (run (init false SurfaceTextureMode) cleanPaintTrace) := by
  apply claim9_front_back_distinct
  intro i hi t hop
  have hlen : i < 3 := by simpa [cleanPaintTrace] using hi
  interval_cases i
  · simp only [cleanPaintTrace, List.getD] at hop
    simp at hop
    subst hop
    simp [run, init]
  · simp [cleanPaintTrace, List.getD] at hop
  · simp [cleanPaintTrace, List.getD] at hop

end BaseTile
